import Mathlib

/-!
Verification of the Cloudflare status monitor core pipeline: the data
model, the ICN keyword filter, the issue classifier, the upstream client
error handling, and the Slack payload formatters, shallowly embedded
from the JavaScript source files of the repository.

JavaScript objects are embedded as structures whose possibly-missing
fields are `Option`s; JavaScript string truthiness (empty string is
falsy) is embedded by `jsTruthy`; functions that can throw return
`Except String`.
-/

deriving instance DecidableEq for Except

namespace CF

/-- A status-page component as read by the program: a `name`, an
optional `description`, and an optional `status` token (a `none`
status models a JS object without the field). -/
structure Component where
  name : String
  description : Option String
  status : Option String
deriving DecidableEq

/-- The `status` sub-object of the overall-status document, of which
the program reads only `description`. -/
structure StatusInfo where
  description : Option String
deriving DecidableEq

/-- One entry of an incident timeline: `status` token, free-text
`body`, and `created_at` timestamp string. -/
structure IncidentUpdate where
  status : Option String
  body : String
  created_at : String
deriving DecidableEq

/-- An affected-component reference inside an incident (the program
reads only `name`). -/
structure IncidentComponentRef where
  name : String
deriving DecidableEq

/-- An incident as read by the program. -/
structure Incident where
  name : String
  status : Option String
  impact : Option String
  monitoring : Bool
  incident_updates : Option (List IncidentUpdate)
  components : Option (List IncidentComponentRef)
deriving DecidableEq

/-- The dynamic JSON object flowing through the pipeline: any of the
three top-level fields the program reads may be present or absent. -/
structure JsData where
  status : Option StatusInfo
  components : Option (List Component)
  incidents : Option (List Incident)
deriving DecidableEq

instance : Inhabited JsData := ⟨⟨none, none, none⟩⟩

/-- `ICN_KEYWORDS` from `src/config/constants.js`. -/
def ICN_KEYWORDS : List String := ["icn", "seoul", "korea", "south korea"]

/-- JS truthiness of an optional string: `undefined`, `null` and the
empty string are falsy. -/
def jsTruthy (s : Option String) : Bool :=
  match s with
  | none => false
  | some x => x ≠ ""

/-- JS `a || d` for an optional string `a`: the default is taken when
`a` is absent or empty. -/
def jsOr (s : Option String) (d : String) : String :=
  if jsTruthy s then s.getD "" else d

/-- Occurrence of `needle` as a contiguous sublist of a character
list: at the front, or anywhere in the tail. -/
def listIncludes (needle : List Char) : List Char → Bool
  | [] => needle.isEmpty
  | c :: cs => needle.isPrefixOf (c :: cs) || listIncludes needle cs

/-- JS `hay.includes(needle)`: substring test. -/
def strIncludes (hay needle : String) : Bool :=
  listIncludes needle.data hay.data

/-- String prefix test (used to recognize rendered blocks). -/
def strStartsWith (s p : String) : Bool :=
  p.data.isPrefixOf s.data

/-- JS `s.toLowerCase()`: character-wise lowercasing. -/
def strToLower (s : String) : String :=
  ⟨s.data.map Char.toLower⟩

/-- The match predicate of `filterForICN` (`src/api/cloudflareStatus.js`):
some keyword occurs in the lowercased name or in the lowercased
description (missing description read as the empty string). -/
def matchesICN (keywords : List String) (component : Component) : Bool :=
  let name := strToLower component.name
  let description := strToLower (component.description.getD "")
  keywords.any fun keyword => strIncludes name keyword || strIncludes description keyword

/-- `filterForICN` from `src/api/cloudflareStatus.js`, generalized over
the keyword list it closes over. The source deep-copies its input and
mutates only the copy; the pure value-level effect is: when the
`components` field is present (JS: a present array is truthy, even when
empty) it is replaced by its keyword-filtered version, otherwise the
data is returned unchanged. -/
def filterForICNWith (keywords : List String) (data : JsData) : JsData :=
  match data.components with
  | some comps => { data with components := some (comps.filter (matchesICN keywords)) }
  | none => data

/-- `filterForICN` as written: closes over `ICN_KEYWORDS`. -/
def filterForICN (data : JsData) : JsData :=
  filterForICNWith ICN_KEYWORDS data

/-- An upstream HTTP response: numeric status, status text, and the
parsed JSON body. -/
structure HttpResponse where
  status : Nat
  statusText : String
  body : JsData
deriving DecidableEq

/-- The Fetch API `response.ok` property: status in the 200–299 range. -/
def HttpResponse.ok (r : HttpResponse) : Bool :=
  200 ≤ r.status && r.status ≤ 299

/-- The merge step inside `fetchICNComponentsStatus`:
`{...statusData, components: componentsData.components || []}` — all
fields of the status document, with `components` overridden by the
components listing's array (or `[]` when that is absent). -/
def combineStatusData (statusData componentsData : JsData) : JsData :=
  { statusData with components := some (componentsData.components.getD []) }

/-- `fetchICNComponentsStatus` from `src/api/cloudflareStatus.js`,
with the two network responses passed explicitly. A non-ok response
to either fetch throws; otherwise the two bodies are merged and the
merged data filtered. -/
def fetchICNComponentsStatus (componentsResponse statusResponse : HttpResponse) :
    Except String JsData :=
  if !componentsResponse.ok then
    .error ("Failed to fetch components data: " ++ toString componentsResponse.status
      ++ " " ++ componentsResponse.statusText)
  else if !statusResponse.ok then
    .error ("Failed to fetch status data: " ++ toString statusResponse.status
      ++ " " ++ statusResponse.statusText)
  else
    let componentsData := componentsResponse.body
    let statusData := statusResponse.body
    let combinedData := combineStatusData statusData componentsData
    .ok (filterForICN combinedData)

/-- `fetchUnresolvedIncidents` from `src/api/cloudflareStatus.js`. -/
def fetchUnresolvedIncidents (response : HttpResponse) : Except String JsData :=
  if !response.ok then
    .error ("Failed to fetch incidents data: " ++ toString response.status
      ++ " " ++ response.statusText)
  else
    .ok response.body

/-- The inline classifier of `checkICNComponents` (`src/index.js`):
some component's status differs from the exact token `operational`
(an absent status also differs). -/
def hasIssues (comps : List Component) : Bool :=
  comps.any fun component => component.status != some "operational"

/-- A Slack Block Kit block as built by `src/notifications/slack.js`:
a header, a divider, a markdown section, or a markdown context line. -/
inductive Block where
  | header (text : String)
  | divider
  | sect (text : String)
  | context (text : String)
deriving DecidableEq

/-- The payload returned by the formatters: a block list plus a
fallback `text`. -/
structure SlackPayload where
  blocks : List Block
  text : String
deriving DecidableEq

/-- JS `s.replace(pat, repl)` with one-character string arguments:
only the FIRST occurrence of the pattern character is replaced. -/
def jsReplaceFirstChar (pat repl : Char) : List Char → List Char
  | [] => []
  | c :: cs => if c = pat then repl :: cs else c :: jsReplaceFirstChar pat repl cs

/-- The `component.status.replace('_', ' ')` call of
`formatComponentsPayload`: replaces the first underscore by a space. -/
def jsReplaceUnderscore (s : String) : String :=
  ⟨jsReplaceFirstChar '_' ' ' s.data⟩

/-- `getStatusEmoji` from `src/notifications/slack.js`: falsy status
gives the warning emoji, else an exhaustive lowercased-token table with
the warning emoji as default. -/
def getStatusEmoji (status : Option String) : String :=
  if !jsTruthy status then "⚠️"
  else
    let s := strToLower (status.getD "")
    if s = "investigating" then "🔍"
    else if s = "identified" then "🔎"
    else if s = "monitoring" then "👀"
    else if s = "resolved" then "✅"
    else if s = "postmortem" then "📝"
    else "⚠️"

/-- The per-component glyph of `formatComponentsPayload`: ok for
`operational`, warning for `degraded_performance`, error otherwise
(also for an absent status, which compares unequal to both tokens). -/
def componentStatusEmoji (status : Option String) : String :=
  if status != some "operational" then
    (if status == some "degraded_performance" then "⚠️" else "❌")
  else "✅"

/-- One component line of `formatComponentsPayload`. Reading
`component.status.replace` throws a TypeError when the status field is
absent; a present status (even the empty string) renders. -/
def componentBlock (component : Component) : Except String Block :=
  let statusEmoji := componentStatusEmoji component.status
  match component.status with
  | none => .error "TypeError: Cannot read properties of undefined (reading 'replace')"
  | some st =>
    .ok (Block.sect (statusEmoji ++ " *" ++ component.name ++ "*: " ++ jsReplaceUnderscore st))

/-- The `forEach` loop of `formatComponentsPayload` over the component
list, stopping at the first thrown error. -/
def componentsBlocks : List Component → Except String (List Block)
  | [] => .ok []
  | c :: rest =>
    match componentBlock c with
    | .error e => .error e
    | .ok b =>
      match componentsBlocks rest with
      | .error e => .error e
      | .ok bs => .ok (b :: bs)

/-- `formatComponentsPayload` from `src/notifications/slack.js`, with
the clock reading (`new Date().toISOString()`) passed in as `now`. -/
def formatComponentsPayload (now : String) (data : JsData) : Except String SlackPayload :=
  let headBlocks : List Block :=
    [Block.header "🌐 Cloudflare ICN (Seoul) Status Update", Block.divider]
  let statusBlocks : List Block :=
    match data.status with
    | some st => [Block.sect ("*Overall Status:* " ++ jsOr st.description "Unknown")]
    | none => []
  let comps := data.components.getD []
  let listBlocks : Except String (List Block) :=
    if comps.length > 0 then
      match componentsBlocks comps with
      | .error e => .error e
      | .ok lines => .ok (Block.sect "*ICN Components:*" :: lines)
    else
      .ok [Block.sect "_No ICN components found_"]
  match listBlocks with
  | .error e => .error e
  | .ok componentBlocksList =>
    .ok { blocks := headBlocks ++ statusBlocks ++ componentBlocksList
            ++ [Block.context ("Last updated: " ++ now)],
          text := "Cloudflare ICN (Seoul) Status Update" }

/-- One timeline entry of `formatIncidentsPayload` (a section with the
update label, status token and body, then a context line with the
locale-rendered time); `loc` embeds
`new Date(update.created_at).toLocaleString()`. `total` is the length
of the sliced update list and `index` the position in it. -/
def updateEntryBlocks (loc : String → String) (total index : Nat)
    (update : IncidentUpdate) : List Block :=
  let updateTime := loc update.created_at
  let updateStatus := if jsTruthy update.status then "[" ++ update.status.getD "" ++ "]" else ""
  [Block.sect ((if index = 0 then "*Latest Update:*"
      else "*Update " ++ toString (total - index) ++ ":*") ++ " " ++ updateStatus
      ++ "\n" ++ update.body),
   Block.context ("Updated: " ++ updateTime)]

/-- The `impactText` local of `formatIncidentsPayload`. -/
def incidentImpactText (incident : Incident) : String :=
  if jsTruthy incident.impact then "Impact: " ++ incident.impact.getD "" else ""

/-- The `monitoringText` local of `formatIncidentsPayload`. -/
def incidentMonitoringText (incident : Incident) : String :=
  if incident.monitoring then "🔍 Being monitored" else ""

/-- The markdown text of the leading section of one incident: glyph,
name, status (with `Unknown` fallback), optional impact and monitoring
lines (the JS template interpolates the impact and monitoring pieces
only when their text is nonempty). -/
def incidentHeadText (incident : Incident) : String :=
  getStatusEmoji incident.status ++ " *" ++ incident.name ++ "*\n*Status:* "
    ++ jsOr incident.status "Unknown"
    ++ (if incidentImpactText incident ≠ "" then
          "\n*" ++ incidentImpactText incident ++ "*" else "")
    ++ (if incidentMonitoringText incident ≠ "" then
          "\n" ++ incidentMonitoringText incident else "")

/-- The leading section block of one incident. -/
def incidentHeadBlock (incident : Incident) : Block :=
  Block.sect (incidentHeadText incident)

/-- The timeline portion of one incident: when updates are present and
nonempty, a timeline header, the first 3 updates (`slice(0, 3)`), and,
when more than 3 exist, a note with the count of updates not shown. -/
def incidentTimelineBlocks (loc : String → String) (incident : Incident) : List Block :=
  match incident.incident_updates with
  | none => []
  | some ups =>
    if ups.length > 0 then
      let updates := ups.take 3
      Block.sect "*Incident Timeline:*" ::
        (updates.enum.flatMap fun p => updateEntryBlocks loc updates.length p.1 p.2)
        ++ (if ups.length > 3 then
              [Block.context ("_" ++ toString (ups.length - 3) ++ " more updates not shown_")]
            else [])
    else []

/-- The affected-components section of one incident, when present and
nonempty. -/
def affectedComponentsBlocks (incident : Incident) : List Block :=
  match incident.components with
  | none => []
  | some cs =>
    if cs.length > 0 then
      [Block.sect ("*Affected Components:* " ++ String.intercalate ", " (cs.map (·.name)))]
    else []

/-- All blocks pushed for one incident inside the `forEach` of
`formatIncidentsPayload`, ending with a divider. -/
def incidentBlocks (loc : String → String) (incident : Incident) : List Block :=
  incidentHeadBlock incident ::
    incidentTimelineBlocks loc incident ++ affectedComponentsBlocks incident ++ [Block.divider]

/-- `formatIncidentsPayload` from `src/notifications/slack.js`, with
the clock reading passed as `now` and date-locale rendering as `loc`. -/
def formatIncidentsPayload (now : String) (loc : String → String) (data : JsData) : SlackPayload :=
  let headBlocks : List Block := [Block.header "🚨 Cloudflare Incident Alert", Block.divider]
  let incidentsBlocks : List Block :=
    match data.incidents with
    | some incs =>
      if incs.length > 0 then incs.flatMap (incidentBlocks loc)
      else [Block.sect "_No active incidents reported_"]
    | none => [Block.sect "_No active incidents reported_"]
  { blocks := headBlocks ++ incidentsBlocks ++ [Block.context ("Last checked: " ++ now)],
    text := "Cloudflare Incident Alert" }

/-- `formatSlackPayload` from `src/notifications/slack.js`: dispatch on
the type token, throwing on an unknown type. -/
def formatSlackPayload (now : String) (loc : String → String) (data : JsData)
    (type : String) : Except String SlackPayload :=
  if type = "components" then formatComponentsPayload now data
  else if type = "incidents" then .ok (formatIncidentsPayload now loc data)
  else .error ("Unknown notification type: " ++ type)

/-- Outcome of `sendSlackNotification`: the boolean it returns, and the
payloads actually POSTed to the webhook. -/
structure SlackSendResult where
  returned : Bool
  posted : List SlackPayload
deriving DecidableEq

/-- `sendSlackNotification` from `src/notifications/slack.js`, with the
webhook URL (from the environment) and the webhook's response success
passed explicitly. The whole body sits in a try/catch that logs and
returns `false`, so the function never propagates an error: a missing
webhook URL returns `false` before formatting; a formatting throw is
caught with nothing posted; a non-ok webhook response throws after the
POST and is caught. -/
def sendSlackNotification (webhookUrl : Option String) (webhookOk : Bool)
    (now : String) (loc : String → String) (data : JsData) (type : String) :
    Except String SlackSendResult :=
  if !jsTruthy webhookUrl then
    .ok { returned := false, posted := [] }
  else
    match formatSlackPayload now loc data type with
    | .error _ => .ok { returned := false, posted := [] }
    | .ok payload =>
      if webhookOk then .ok { returned := true, posted := [payload] }
      else .ok { returned := false, posted := [payload] }

/-- The JSON object returned by `checkICNComponents` on success. -/
structure ComponentsCheckResult where
  status : String
  message : String
  hasIssues : Bool
  data : JsData
deriving DecidableEq

/-- `checkICNComponents` from `src/index.js` (the variant that notifies
only when an issue exists), with the upstream responses passed
explicitly. The second component records the notification attempts, as
`(data, type)` pairs handed to `sendSlackNotification` (whose returned
boolean the source discards); a fetch error propagates and nothing is
attempted. -/
def checkICNComponents (componentsResponse statusResponse : HttpResponse) :
    Except String ComponentsCheckResult × List (JsData × String) :=
  match fetchICNComponentsStatus componentsResponse statusResponse with
  | .error e => (.error e, [])
  | .ok componentsData =>
    let issues :=
      match componentsData.components with
      | none => false
      | some comps => hasIssues comps
    let attempts := if issues then [(componentsData, "components")] else []
    (.ok { status := "success", message := "ICN components status checked",
           hasIssues := issues, data := componentsData }, attempts)

/-- The JSON object returned by `checkUnresolvedIncidents` on success. -/
structure IncidentsCheckResult where
  status : String
  message : String
  incidentsCount : Nat
  data : JsData
deriving DecidableEq

/-- `checkUnresolvedIncidents` from `src/index.js`, with the upstream
response passed explicitly; notification is attempted when the
incident list is present and nonempty. -/
def checkUnresolvedIncidents (response : HttpResponse) :
    Except String IncidentsCheckResult × List (JsData × String) :=
  match fetchUnresolvedIncidents response with
  | .error e => (.error e, [])
  | .ok incidentsData =>
    let nonempty :=
      match incidentsData.incidents with
      | none => false
      | some incs => incs.length > 0
    let attempts := if nonempty then [(incidentsData, "incidents")] else []
    (.ok { status := "success", message := "Unresolved incidents checked",
           incidentsCount := (incidentsData.incidents.getD []).length,
           data := incidentsData }, attempts)

/-- Serialization round trip of one timeline update. -/
def deepCopyUpdate (u : IncidentUpdate) : IncidentUpdate :=
  { status := u.status, body := u.body, created_at := u.created_at }

/-- Serialization round trip of one component. -/
def deepCopyComponent (c : Component) : Component :=
  { name := c.name, description := c.description, status := c.status }

/-- Serialization round trip of one incident. -/
def deepCopyIncident (i : Incident) : Incident :=
  { name := i.name, status := i.status, impact := i.impact, monitoring := i.monitoring,
    incident_updates := i.incident_updates.map (List.map deepCopyUpdate),
    components := i.components.map (List.map fun r => { name := r.name }) }

/-- The `JSON.parse(JSON.stringify(data))` deep copy of `filterForICN`,
rebuilding every level of the structure field by field. -/
def deepCopy (data : JsData) : JsData :=
  { status := data.status.map fun s => { description := s.description },
    components := data.components.map (List.map deepCopyComponent),
    incidents := data.incidents.map (List.map deepCopyIncident) }

/-- Reading an object reference out of a small object heap. -/
def heapGet (heap : List JsData) (r : Nat) : JsData :=
  heap.getD r default

/-- `filterForICN` at the object level: the input is a reference into a
heap of objects. A fresh object (the parsed deep copy) is allocated at
the end of the heap; when its `components` field is truthy the
assignment `filteredData.components = ...` updates that fresh object in
place; the reference to the fresh object is returned. -/
def filterForICNHeap (heap : List JsData) (r : Nat) : List JsData × Nat :=
  let data := heapGet heap r
  let filteredData := deepCopy data
  let rCopy := heap.length
  let heap1 := heap ++ [filteredData]
  match filteredData.components with
  | some comps =>
    (heap1.set rCopy
      { filteredData with components := some (comps.filter (matchesICN ICN_KEYWORDS)) }, rCopy)
  | none => (heap1, rCopy)

/-! Helper lemmas about the string tests. -/

/-- The executable infix test agrees with list infixhood. -/
theorem listIncludes_iff (needle hay : List Char) :
    listIncludes needle hay = true ↔ needle <:+: hay := by
  induction hay with
  | nil => simp [listIncludes, List.isEmpty_iff]
  | cons c cs ih =>
    simp [listIncludes, Bool.or_eq_true, List.isPrefixOf_iff_prefix, ih,
      List.infix_cons_iff]

/-- The substring test agrees with infixhood of the character lists. -/
theorem strIncludes_iff (hay needle : String) :
    strIncludes hay needle = true ↔ needle.data <:+: hay.data :=
  listIncludes_iff needle.data hay.data

/-- The prefix test agrees with prefixhood of the character lists. -/
theorem strStartsWith_iff (s p : String) :
    strStartsWith s p = true ↔ p.data <+: s.data :=
  List.isPrefixOf_iff_prefix

/-- A string that literally begins with `p` starts with `p`. -/
theorem strStartsWith_append (p s : String) : strStartsWith (p ++ s) p = true := by
  rw [strStartsWith_iff, String.data_append]
  exact List.prefix_append _ _

/-- Starting with a string transfers along a further append. -/
theorem strStartsWith_of_strStartsWith (q p s : String) (h : strStartsWith p q = true) :
    strStartsWith (p ++ s) q = true := by
  rw [strStartsWith_iff] at h ⊢
  rw [String.data_append]
  exact h.trans (List.prefix_append _ _)

/-- A string whose first character differs from the test's first
character does not start with the test, whatever follows. -/
theorem strStartsWith_false_of_head_ne (s t p : String) (c d : Char) (cs ds : List Char)
    (hs : s.data = c :: cs) (hp : p.data = d :: ds) (hcd : c ≠ d) :
    strStartsWith (s ++ t) p = false := by
  simp only [Bool.eq_false_iff, Ne, strStartsWith_iff]
  rw [String.data_append, hs, hp, List.cons_append, List.cons_prefix_cons]
  rintro ⟨h1, -⟩
  exact hcd h1.symm

/-- A failed prefix test on a string at least as long as the test stays
failed after appending. -/
theorem strStartsWith_append_false (s t p : String)
    (hlen : p.data.length ≤ s.data.length) (h : strStartsWith s p = false) :
    strStartsWith (s ++ t) p = false := by
  simp only [Bool.eq_false_iff, Ne, strStartsWith_iff] at h ⊢
  intro hpre
  apply h
  rw [String.data_append] at hpre
  rw [List.prefix_iff_eq_take] at hpre ⊢
  rwa [List.take_append_of_le_length hlen] at hpre

/-- A string occurring literally in the middle of a concatenation is
included in it. -/
theorem strIncludes_sandwich (a m b : String) : strIncludes (a ++ m ++ b) m = true := by
  rw [strIncludes_iff]
  refine ⟨a.data, b.data, ?_⟩
  rw [String.data_append, String.data_append]

/-- Two concatenations with distinct first characters are distinct
strings. -/
theorem append_ne_of_head_ne (s t p q : String) (c d : Char) (cs ds : List Char)
    (hs : s.data = c :: cs) (hp : p.data = d :: ds) (hcd : c ≠ d) :
    (s ++ t) ≠ (p ++ q) := by
  intro h
  have hd := congrArg String.data h
  rw [String.data_append, String.data_append, hs, hp] at hd
  simp only [List.cons_append, List.cons.injEq] at hd
  exact hcd hd.1

/-! Claim theorems. -/

/-- C1: for every components list and every keyword set `K`, filtering
with `K` returns exactly the subset of components whose lowercased name
or lowercased description (missing description read as empty) includes
some keyword of `K` as a substring, preserving the original relative
order; for empty `K` the resulting components list is empty. -/
theorem C1_filter_exact_subset (K : List String) (data : JsData) (comps : List Component)
    (h : data.components = some comps) :
    (filterForICNWith K data).components = some (comps.filter (matchesICN K)) ∧
    (comps.filter (matchesICN K)).Sublist comps ∧
    (∀ c : Component, c ∈ comps.filter (matchesICN K) ↔ c ∈ comps ∧
      ∃ kw ∈ K, strIncludes (strToLower c.name) kw = true ∨
        strIncludes (strToLower (c.description.getD "")) kw = true) ∧
    (∀ c : Component, (comps.filter (matchesICN K)).count c
      = if matchesICN K c then comps.count c else 0) ∧
    (K = [] → comps.filter (matchesICN K) = []) := by
  refine ⟨?_, List.filter_sublist comps, ?_, ?_, ?_⟩
  · simp [filterForICNWith, h]
  · intro c
    rw [List.mem_filter]
    constructor
    · rintro ⟨hc, hm⟩
      refine ⟨hc, ?_⟩
      simpa [matchesICN, List.any_eq_true, Bool.or_eq_true] using hm
    · rintro ⟨hc, hm⟩
      exact ⟨hc, by simpa [matchesICN, List.any_eq_true, Bool.or_eq_true] using hm⟩
  · intro c
    by_cases hm : matchesICN K c
    · rw [if_pos hm, List.count_filter hm]
    · rw [if_neg hm, List.count_eq_zero]
      intro hmem
      exact hm (List.mem_filter.mp hmem).2
  · intro hK
    subst hK
    rw [List.filter_eq_nil_iff]
    intro c _
    simp [matchesICN]

/-- Witness for C1: filtering the Tokyo/Seoul component pair on the
keyword list `["seoul"]` keeps exactly the Seoul component. -/
theorem C1_witness :
    (filterForICNWith ["seoul"]
      ⟨none, some [⟨"Tokyo Cache", none, some "major_outage"⟩,
        ⟨"Seoul Node", none, some "degraded_performance"⟩], none⟩).components
      = some [⟨"Seoul Node", none, some "degraded_performance"⟩] := by
  have h := (C1_filter_exact_subset ["seoul"]
    ⟨none, some [⟨"Tokyo Cache", none, some "major_outage"⟩,
      ⟨"Seoul Node", none, some "degraded_performance"⟩], none⟩ _ rfl).1
  rw [h]
  decide

/-- C2: the actionable-issue classifier is true iff some component's
status differs from the exact token `operational`, is false on the
empty list, and is exactly what `checkICNComponents` computes from the
fetched data. -/
theorem C2_hasIssues_characterization :
    (∀ comps : List Component,
      hasIssues comps = true ↔ ∃ c ∈ comps, c.status ≠ some "operational") ∧
    hasIssues [] = false ∧
    (∀ componentsResponse statusResponse : HttpResponse,
      (checkICNComponents componentsResponse statusResponse).1.map
          ComponentsCheckResult.hasIssues
        = (fetchICNComponentsStatus componentsResponse statusResponse).map
            fun d => hasIssues (d.components.getD [])) := by
  refine ⟨?_, rfl, ?_⟩
  · intro comps
    simp [hasIssues, List.any_eq_true, bne_iff_ne]
  · intro rc rs
    unfold checkICNComponents
    cases hf : fetchICNComponentsStatus rc rs with
    | error e => rfl
    | ok d =>
      cases hd : d.components with
      | none => simp [hd, Except.map, hasIssues]
      | some l => simp [hd, Except.map]

/-- The two properties of a fetch-failure message built as
`prefix-with-colon ++ code ++ " " ++ statusText`: it starts with the
identifying phrase and includes the rendered status code. -/
theorem fetchErrorMessageProps (pre preColon : String) (code : Nat) (text : String)
    (hpre : strStartsWith preColon pre = true) :
    strStartsWith (preColon ++ toString code ++ " " ++ text) pre = true ∧
    strIncludes (preColon ++ toString code ++ " " ++ text) (toString code) = true := by
  constructor
  · rw [String.append_assoc (preColon ++ toString code) " " text,
      String.append_assoc preColon (toString code) (" " ++ text)]
    exact strStartsWith_of_strStartsWith pre preColon _ hpre
  · rw [String.append_assoc (preColon ++ toString code) " " text]
    exact strIncludes_sandwich preColon (toString code) (" " ++ text)

/-- C3: a non-success HTTP response on any of the fetches of the
components check or the incidents check fails the whole check with an
error message that identifies the failing fetch and includes the HTTP
status code; no data is returned and no notification is attempted. -/
theorem C3_fetch_error_propagation
    (componentsResponse statusResponse incidentsResponse : HttpResponse) :
    (componentsResponse.ok = false →
      checkICNComponents componentsResponse statusResponse =
        (.error ("Failed to fetch components data: " ++ toString componentsResponse.status
          ++ " " ++ componentsResponse.statusText), []) ∧
      strStartsWith ("Failed to fetch components data: " ++ toString componentsResponse.status
          ++ " " ++ componentsResponse.statusText) "Failed to fetch components data" = true ∧
      strIncludes ("Failed to fetch components data: " ++ toString componentsResponse.status
          ++ " " ++ componentsResponse.statusText) (toString componentsResponse.status) = true) ∧
    (componentsResponse.ok = true → statusResponse.ok = false →
      checkICNComponents componentsResponse statusResponse =
        (.error ("Failed to fetch status data: " ++ toString statusResponse.status
          ++ " " ++ statusResponse.statusText), []) ∧
      strStartsWith ("Failed to fetch status data: " ++ toString statusResponse.status
          ++ " " ++ statusResponse.statusText) "Failed to fetch status data" = true ∧
      strIncludes ("Failed to fetch status data: " ++ toString statusResponse.status
          ++ " " ++ statusResponse.statusText) (toString statusResponse.status) = true) ∧
    (incidentsResponse.ok = false →
      checkUnresolvedIncidents incidentsResponse =
        (.error ("Failed to fetch incidents data: " ++ toString incidentsResponse.status
          ++ " " ++ incidentsResponse.statusText), []) ∧
      strStartsWith ("Failed to fetch incidents data: " ++ toString incidentsResponse.status
          ++ " " ++ incidentsResponse.statusText) "Failed to fetch incidents data" = true ∧
      strIncludes ("Failed to fetch incidents data: " ++ toString incidentsResponse.status
          ++ " " ++ incidentsResponse.statusText) (toString incidentsResponse.status) = true) := by
  refine ⟨fun h => ⟨?_, fetchErrorMessageProps _ _ _ _ (by decide)⟩,
    fun h1 h2 => ⟨?_, fetchErrorMessageProps _ _ _ _ (by decide)⟩,
    fun h => ⟨?_, fetchErrorMessageProps _ _ _ _ (by decide)⟩⟩
  · simp [checkICNComponents, fetchICNComponentsStatus, h]
  · simp [checkICNComponents, fetchICNComponentsStatus, h1, h2]
  · simp [checkUnresolvedIncidents, fetchUnresolvedIncidents, h]

/-- A 503 upstream response used by witnesses. -/
def resp503 : HttpResponse := ⟨503, "Service Unavailable", ⟨none, none, none⟩⟩

/-- A 200 upstream response with an empty body, used by witnesses. -/
def resp200 : HttpResponse := ⟨200, "OK", ⟨none, none, none⟩⟩

/-- Witness for C3 at a concrete 503 response on the components fetch
and on the incidents fetch. -/
theorem C3_witness :
    resp503.ok = false ∧
    checkICNComponents resp503 resp200 =
      (.error ("Failed to fetch components data: " ++ toString resp503.status ++ " "
        ++ resp503.statusText), []) ∧
    strStartsWith ("Failed to fetch components data: " ++ toString resp503.status ++ " "
        ++ resp503.statusText) "Failed to fetch components data" = true ∧
    strIncludes ("Failed to fetch components data: " ++ toString resp503.status ++ " "
        ++ resp503.statusText) (toString resp503.status) = true ∧
    checkUnresolvedIncidents resp503 =
      (.error ("Failed to fetch incidents data: " ++ toString resp503.status ++ " "
        ++ resp503.statusText), []) ∧
    strStartsWith ("Failed to fetch incidents data: " ++ toString resp503.status ++ " "
        ++ resp503.statusText) "Failed to fetch incidents data" = true ∧
    strIncludes ("Failed to fetch incidents data: " ++ toString resp503.status ++ " "
        ++ resp503.statusText) (toString resp503.status) = true := by
  have h := C3_fetch_error_propagation resp503 resp200 resp503
  have hok : resp503.ok = false := by decide
  exact ⟨hok, (h.1 hok).1, (h.1 hok).2.1, (h.1 hok).2.2,
    (h.2.2 hok).1, (h.2.2 hok).2.1, (h.2.2 hok).2.2⟩

/-- Modelled from the spec: the claimed rendering rule, "the status
token with every underscore replaced by a space", stated for comparison
with what the code actually does. -/
def replaceAllUnderscoresSpec (s : String) : String :=
  ⟨s.data.map fun c => if c = '_' then ' ' else c⟩

/-- The first-occurrence replacement leaves a list without the pattern
unchanged. -/
theorem jsReplaceFirstChar_of_not_mem (pat repl : Char) (l : List Char) (h : pat ∉ l) :
    jsReplaceFirstChar pat repl l = l := by
  induction l with
  | nil => rfl
  | cons c cs ih =>
    simp only [List.mem_cons, not_or] at h
    rw [jsReplaceFirstChar, if_neg (fun hc => h.1 hc.symm), ih h.2]

/-- The first-occurrence replacement rewrites exactly the first
occurrence of the pattern and nothing after it. -/
theorem jsReplaceFirstChar_first (pat repl : Char) (a b : List Char) (h : pat ∉ a) :
    jsReplaceFirstChar pat repl (a ++ pat :: b) = a ++ repl :: b := by
  induction a with
  | nil => simp [jsReplaceFirstChar]
  | cons c cs ih =>
    simp only [List.mem_cons, not_or] at h
    rw [List.cons_append, jsReplaceFirstChar, if_neg (fun hc => h.1 hc.symm), ih h.2,
      List.cons_append]

/-- Counterexample to C4 as stated: for the status token `a_b_c` the
rendered line keeps the second underscore, so the status is not shown
with every underscore replaced by a space. -/
theorem C4_counterexample :
    componentBlock ⟨"X", none, some "a_b_c"⟩ = .ok (Block.sect "❌ *X*: a b_c") ∧
    "a b_c" ≠ replaceAllUnderscoresSpec "a_b_c" :=
  ⟨by decide, by decide⟩

/-- C4 (amended): each rendered component line shows the ok glyph
exactly for `operational`, the warning glyph exactly for
`degraded_performance`, the error glyph for every other token, and the
status token with its FIRST underscore (if any) replaced by a space —
which agrees with the claim on tokens with at most one underscore,
e.g. `degraded_performance` renders as `degraded performance`. -/
theorem C4_component_line_amended (c : Component) (st : String) (h : c.status = some st) :
    componentBlock c = .ok (Block.sect (componentStatusEmoji (some st) ++ " *" ++ c.name
      ++ "*: " ++ jsReplaceUnderscore st)) ∧
    (componentStatusEmoji (some st) = "✅" ↔ st = "operational") ∧
    (componentStatusEmoji (some st) = "⚠️" ↔ st = "degraded_performance") ∧
    (st ≠ "operational" → st ≠ "degraded_performance" → componentStatusEmoji (some st) = "❌") ∧
    ('_' ∉ st.data → jsReplaceUnderscore st = st) ∧
    (∀ a b : List Char, st.data = a ++ '_' :: b → '_' ∉ a →
      (jsReplaceUnderscore st).data = a ++ ' ' :: b) ∧
    jsReplaceUnderscore "degraded_performance" = "degraded performance" := by
  have hemoji : componentStatusEmoji (some st)
      = if st = "operational" then "✅"
        else if st = "degraded_performance" then "⚠️" else "❌" := by
    by_cases h1 : st = "operational"
    · subst h1; simp [componentStatusEmoji]
    · by_cases h2 : st = "degraded_performance"
      · subst h2; simp [componentStatusEmoji]
      · simp [componentStatusEmoji, bne_iff_ne, h1, h2]
  refine ⟨by simp [componentBlock, h], ?_, ?_, ?_, ?_, ?_, by decide⟩
  · rw [hemoji]
    by_cases h1 : st = "operational"
    · rw [if_pos h1]; exact iff_of_true rfl h1
    · by_cases h2 : st = "degraded_performance"
      · rw [if_neg h1, if_pos h2]; exact iff_of_false (by decide) h1
      · rw [if_neg h1, if_neg h2]; exact iff_of_false (by decide) h1
  · rw [hemoji]
    by_cases h1 : st = "operational"
    · subst h1; rw [if_pos rfl]; exact iff_of_false (by decide) (by decide)
    · by_cases h2 : st = "degraded_performance"
      · rw [if_neg h1, if_pos h2]; exact iff_of_true rfl h2
      · rw [if_neg h1, if_neg h2]; exact iff_of_false (by decide) h2
  · intro h1 h2
    rw [hemoji, if_neg h1, if_neg h2]
  · intro hmem
    show (⟨jsReplaceFirstChar '_' ' ' st.data⟩ : String) = st
    rw [jsReplaceFirstChar_of_not_mem _ _ _ hmem]
  · intro a b hab hmem
    show jsReplaceFirstChar '_' ' ' st.data = a ++ ' ' :: b
    rw [hab, jsReplaceFirstChar_first _ _ _ _ hmem]

/-- Witness for C4 (amended) at the Seoul scenario component with
status `degraded_performance`. -/
theorem C4_witness :
    componentBlock ⟨"Seoul Node", none, some "degraded_performance"⟩
      = .ok (Block.sect (componentStatusEmoji (some "degraded_performance") ++ " *"
        ++ "Seoul Node" ++ "*: " ++ jsReplaceUnderscore "degraded_performance")) ∧
    (componentStatusEmoji (some "degraded_performance") = "⚠️" ↔
      "degraded_performance" = "degraded_performance") ∧
    jsReplaceUnderscore "degraded_performance" = "degraded performance" := by
  have h := C4_component_line_amended ⟨"Seoul Node", none, some "degraded_performance"⟩
    "degraded_performance" rfl
  exact ⟨h.1, h.2.2.1, h.2.2.2.2.2.2⟩

/-- Recognizer for a rendered timeline-update section block: a section
whose text carries one of the two update labels. -/
def isUpdateEntryBlock : Block → Bool
  | Block.sect t => strStartsWith t "*Latest Update:*" || strStartsWith t "*Update "
  | _ => false

/-- Every string starts with itself. -/
theorem strStartsWith_self (s : String) : strStartsWith s s = true := by
  rw [strStartsWith_iff]

/-- The head character of a string survives a right append. -/
theorem data_head_append_left (x y : String) (c : Char) (cs : List Char)
    (h : x.data = c :: cs) : (x ++ y).data = c :: (cs ++ y.data) := by
  rw [String.data_append, h, List.cons_append]

/-- Strings with distinct head characters are distinct. -/
theorem ne_of_data_head_ne (s p : String) (c d : Char) (cs ds : List Char)
    (hs : s.data = c :: cs) (hp : p.data = d :: ds) (hcd : c ≠ d) : s ≠ p := by
  intro h
  rw [h, hp] at hs
  exact hcd (List.cons.injEq .. ▸ hs).1.symm

/-- A string whose head character differs from the test's head
character does not start with the test. -/
theorem strStartsWith_false_of_data_head (s p : String) (c d : Char) (cs ds : List Char)
    (hs : s.data = c :: cs) (hp : p.data = d :: ds) (hcd : c ≠ d) :
    strStartsWith s p = false := by
  simp only [Bool.eq_false_iff, Ne, strStartsWith_iff]
  rw [hs, hp, List.cons_prefix_cons]
  rintro ⟨h1, -⟩
  exact hcd h1.symm

/-- The incident-status glyph table only produces the six glyphs. -/
theorem getStatusEmoji_mem (status : Option String) :
    getStatusEmoji status ∈ ["🔍", "🔎", "👀", "✅", "📝", "⚠️"] := by
  simp only [getStatusEmoji]
  repeat' split
  all_goals decide

/-- Every incident-status glyph begins with a character other than the
markdown asterisk. -/
theorem getStatusEmoji_head (status : Option String) :
    ∃ c cs, (getStatusEmoji status).data = c :: cs ∧ c ≠ '*' := by
  have h := getStatusEmoji_mem status
  simp only [List.mem_cons, List.not_mem_nil, or_false] at h
  rcases h with h | h | h | h | h | h <;> rw [h]
  · exact ⟨'🔍', [], rfl, by decide⟩
  · exact ⟨'🔎', [], rfl, by decide⟩
  · exact ⟨'👀', [], rfl, by decide⟩
  · exact ⟨'✅', [], rfl, by decide⟩
  · exact ⟨'📝', [], rfl, by decide⟩
  · exact ⟨'⚠', ['️'], rfl, by decide⟩

/-- The head text of an incident begins with its glyph, hence not with
an asterisk. -/
theorem incidentHeadText_data (incident : Incident) :
    ∃ c tl, (incidentHeadText incident).data = c :: tl ∧ c ≠ '*' := by
  obtain ⟨c, cs, hdata, hc⟩ := getStatusEmoji_head incident.status
  have h1 := data_head_append_left (getStatusEmoji incident.status) " *" c cs hdata
  have h2 := data_head_append_left _ incident.name _ _ h1
  have h3 := data_head_append_left _ "*\n*Status:* " _ _ h2
  have h4 := data_head_append_left _ (jsOr incident.status "Unknown") _ _ h3
  have h5 := data_head_append_left _
    (if incidentImpactText incident ≠ "" then
      "\n*" ++ incidentImpactText incident ++ "*" else "") _ _ h4
  have h6 := data_head_append_left _
    (if incidentMonitoringText incident ≠ "" then
      "\n" ++ incidentMonitoringText incident else "") _ _ h5
  unfold incidentHeadText
  exact ⟨c, _, h6, hc⟩

/-- The incident head block is never recognized as an update entry. -/
theorem isUpdateEntryBlock_incidentHead (incident : Incident) :
    isUpdateEntryBlock (incidentHeadBlock incident) = false := by
  obtain ⟨c, tl, hdata, hc⟩ := incidentHeadText_data incident
  have e1 := strStartsWith_false_of_data_head (incidentHeadText incident) "*Latest Update:*"
    c '*' tl _ hdata rfl hc
  have e2 := strStartsWith_false_of_data_head (incidentHeadText incident) "*Update "
    c '*' tl _ hdata rfl hc
  simp [incidentHeadBlock, isUpdateEntryBlock, e1, e2]

/-- Each rendered timeline entry contains exactly one update-entry
block (its labelled section; its context line is not one). -/
theorem countP_updateEntryBlocks (loc : String → String) (total index : Nat)
    (u : IncidentUpdate) :
    (updateEntryBlocks loc total index u).countP isUpdateEntryBlock = 1 := by
  unfold updateEntryBlocks
  by_cases hi : index = 0
  · subst hi
    have h1 : strStartsWith ("*Latest Update:* "
        ++ (if jsTruthy u.status then "[" ++ u.status.getD "" ++ "]" else "")
        ++ "\n" ++ u.body) "*Latest Update:*" = true :=
      strStartsWith_of_strStartsWith _ _ _ (strStartsWith_of_strStartsWith _ _ _
        (strStartsWith_of_strStartsWith _ _ _ (by decide)))
    simp [List.countP_cons, isUpdateEntryBlock, h1]
  · rw [if_neg hi]
    have h1 : strStartsWith ("*Update " ++ toString (total - index) ++ ":*" ++ " "
        ++ (if jsTruthy u.status then "[" ++ u.status.getD "" ++ "]" else "")
        ++ "\n" ++ u.body) "*Update " = true :=
      strStartsWith_of_strStartsWith _ _ _ (strStartsWith_of_strStartsWith _ _ _
        (strStartsWith_of_strStartsWith _ _ _ (strStartsWith_of_strStartsWith _ _ _
          (strStartsWith_append _ _))))
    simp [List.countP_cons, isUpdateEntryBlock, h1]

/-- The rendered entries of an indexed update list contain one
update-entry block per update. -/
theorem countP_flatMap_updateEntries (loc : String → String) (total : Nat)
    (l : List (Nat × IncidentUpdate)) :
    (l.flatMap fun p => updateEntryBlocks loc total p.1 p.2).countP isUpdateEntryBlock
      = l.length := by
  induction l with
  | nil => rfl
  | cons p ps ih =>
    rw [List.flatMap_cons, List.countP_append, countP_updateEntryBlocks, ih,
      List.length_cons]
    omega

/-- The affected-components section contains no update-entry block. -/
theorem countP_affectedComponentsBlocks (incident : Incident) :
    (affectedComponentsBlocks incident).countP isUpdateEntryBlock = 0 := by
  unfold affectedComponentsBlocks
  cases incident.components with
  | none => rfl
  | some cs =>
    by_cases h : cs.length > 0
    · have h1 : strStartsWith ("*Affected Components:* "
          ++ String.intercalate ", " (cs.map (·.name))) "*Latest Update:*" = false :=
        strStartsWith_append_false _ _ _ (by decide) (by decide)
      have h2 : strStartsWith ("*Affected Components:* "
          ++ String.intercalate ", " (cs.map (·.name))) "*Update " = false :=
        strStartsWith_append_false _ _ _ (by decide) (by decide)
      simp [h, List.countP_cons, isUpdateEntryBlock, h1, h2]
    · simp [h]

/-- The truncation note never occurs among the rendered timeline
entries (their context lines all read `Updated: ...`). -/
theorem note_not_mem_updateEntries (loc : String → String) (total m : Nat)
    (l : List (Nat × IncidentUpdate)) :
    Block.context ("_" ++ toString m ++ " more updates not shown_")
      ∉ (l.flatMap fun p => updateEntryBlocks loc total p.1 p.2) := by
  induction l with
  | nil => simp
  | cons p ps ih =>
    rw [List.flatMap_cons]
    intro hmem
    rcases List.mem_append.mp hmem with hmem | hmem
    · have hU : ("Updated: " ++ loc p.2.created_at).data
          = 'U' :: (("pdated: " : String).data ++ (loc p.2.created_at).data) :=
        data_head_append_left "Updated: " (loc p.2.created_at) 'U' ("pdated: " : String).data
          rfl
      have hN := data_head_append_left ("_" ++ toString m) " more updates not shown_" '_' _
        (data_head_append_left "_" (toString m) '_' [] rfl)
      have hne := ne_of_data_head_ne _ _ 'U' '_' _ _ hU hN (by decide)
      simp only [updateEntryBlocks, List.mem_cons, List.not_mem_nil, or_false] at hmem
      rcases hmem with hmem | hmem
      · simp at hmem
      · rw [Block.context.injEq] at hmem
        exact hne hmem.symm
    · exact ih hmem

/-- The truncation note never occurs in the affected-components
section. -/
theorem note_not_mem_affected (incident : Incident) (m : Nat) :
    Block.context ("_" ++ toString m ++ " more updates not shown_")
      ∉ affectedComponentsBlocks incident := by
  unfold affectedComponentsBlocks
  cases incident.components with
  | none => simp
  | some cs =>
    by_cases h : cs.length > 0
    · simp [h]
    · simp [h]

/-- C5: the blocks rendered for one incident contain one update entry
per update up to 3 (so at most the 3 first updates are surfaced), and
contain the `N more updates not shown` note exactly when the incident
has more than 3 updates, with `N` the number of remaining updates. -/
theorem C5_timeline_truncation (loc : String → String) (incident : Incident)
    (ups : List IncidentUpdate) (h : incident.incident_updates = some ups) :
    (incidentBlocks loc incident).countP isUpdateEntryBlock = min 3 ups.length ∧
    (Block.context ("_" ++ toString (ups.length - 3) ++ " more updates not shown_")
        ∈ incidentBlocks loc incident ↔ 3 < ups.length) := by
  have htimeline : incidentTimelineBlocks loc incident
      = if ups.length > 0 then
          Block.sect "*Incident Timeline:*" ::
            ((ups.take 3).enum.flatMap fun p =>
              updateEntryBlocks loc (ups.take 3).length p.1 p.2)
            ++ (if ups.length > 3 then
                  [Block.context ("_" ++ toString (ups.length - 3)
                    ++ " more updates not shown_")]
                else [])
        else [] := by
    unfold incidentTimelineBlocks
    rw [h]
  have hsectTL : isUpdateEntryBlock (Block.sect "*Incident Timeline:*") = false := by decide
  have hflat := countP_flatMap_updateEntries loc (ups.take 3).length (ups.take 3).enum
  have henum : (ups.take 3).enum.length = min 3 ups.length := by
    rw [List.enum_length, List.length_take]
  have hnote : isUpdateEntryBlock (Block.context ("_" ++ toString (ups.length - 3)
      ++ " more updates not shown_")) = false := rfl
  have hdiv : isUpdateEntryBlock Block.divider = false := rfl
  constructor
  · unfold incidentBlocks
    rw [htimeline]
    by_cases h0 : ups.length > 0
    · rw [if_pos h0]
      by_cases h3 : ups.length > 3
      · rw [if_pos h3]
        simp only [List.countP_cons, List.countP_append, List.countP_nil,
          isUpdateEntryBlock_incidentHead, countP_affectedComponentsBlocks,
          hsectTL, hflat, henum, hnote, hdiv]
        simp
      · rw [if_neg h3]
        simp only [List.countP_cons, List.countP_append, List.countP_nil,
          isUpdateEntryBlock_incidentHead, countP_affectedComponentsBlocks,
          hsectTL, hflat, henum, hnote, hdiv]
        simp
    · rw [if_neg h0]
      have h00 : ups.length = 0 := by omega
      simp only [List.countP_cons, List.countP_append, List.countP_nil,
        isUpdateEntryBlock_incidentHead, countP_affectedComponentsBlocks, hdiv]
      simp [h00]
  · unfold incidentBlocks
    rw [htimeline]
    constructor
    · intro hmem
      rcases List.mem_cons.mp hmem with hmem | hmem
      · simp [incidentHeadBlock] at hmem
      rcases List.mem_append.mp hmem with hmem | hmem
      swap
      · simp at hmem
      rcases List.mem_append.mp hmem with hmem | hmem
      swap
      · exact absurd hmem (note_not_mem_affected incident (ups.length - 3))
      by_cases h0 : ups.length > 0
      swap
      · rw [if_neg h0] at hmem
        simp at hmem
      rw [if_pos h0] at hmem
      rcases List.mem_cons.mp hmem with hmem | hmem
      · simp at hmem
      rcases List.mem_append.mp hmem with hmem | hmem
      · exact absurd hmem (note_not_mem_updateEntries loc _ _ _)
      by_cases h3 : ups.length > 3
      · exact h3
      · rw [if_neg h3] at hmem
        simp at hmem
    · intro h3
      have h0 : ups.length > 0 := by omega
      rw [if_pos h0]
      apply List.mem_cons_of_mem
      apply List.mem_append_left
      apply List.mem_append_left
      apply List.mem_cons_of_mem
      apply List.mem_append_right
      rw [if_pos h3]
      exact List.mem_singleton.mpr rfl

/-- The five-update incident used by the C5 witness. -/
def demoUpdates : List IncidentUpdate :=
  [⟨some "investigating", "u1", "t1"⟩, ⟨some "identified", "u2", "t2"⟩,
   ⟨some "monitoring", "u3", "t3"⟩, ⟨some "update", "u4", "t4"⟩,
   ⟨some "initial", "u5", "t5"⟩]

/-- An incident with five timeline updates, used by the C5 witness. -/
def demoIncident : Incident :=
  { name := "API Errors", status := some "investigating", impact := some "major",
    monitoring := true, incident_updates := some demoUpdates,
    components := some [⟨"CDN"⟩] }

/-- Witness for C5: the incident with 5 updates renders exactly 3
update entries and carries the `2 more updates not shown` note. -/
theorem C5_witness :
    (incidentBlocks (fun s => s) demoIncident).countP isUpdateEntryBlock = 3 ∧
    Block.context ("_" ++ toString (demoUpdates.length - 3) ++ " more updates not shown_")
      ∈ incidentBlocks (fun s => s) demoIncident ∧
    ("_" ++ toString (demoUpdates.length - 3) ++ " more updates not shown_")
      = "_2 more updates not shown_" := by
  have h := C5_timeline_truncation (fun s => s) demoIncident demoUpdates rfl
  exact ⟨h.1.trans (by decide), h.2.mpr (by decide), by decide⟩

/-- C6: the merge takes the overall-status fields from the status
document and the components array from the components listing,
overriding any components list of the status document itself; the
client returns the filtered merge of the two ok bodies; and the claimed
round trip through keyword `icn` holds. -/
theorem C6_merge_semantics :
    (∀ statusData componentsData : JsData,
      (combineStatusData statusData componentsData).status = statusData.status ∧
      (combineStatusData statusData componentsData).incidents = statusData.incidents ∧
      (combineStatusData statusData componentsData).components
        = some (componentsData.components.getD [])) ∧
    (∀ statusData componentsData : JsData, ∀ own : Option (List Component),
      combineStatusData { statusData with components := own } componentsData
        = combineStatusData statusData componentsData) ∧
    (∀ componentsResponse statusResponse : HttpResponse,
      componentsResponse.ok = true → statusResponse.ok = true →
      fetchICNComponentsStatus componentsResponse statusResponse
        = .ok (filterForICN (combineStatusData statusResponse.body
            componentsResponse.body))) ∧
    ((filterForICNWith ["icn"] (combineStatusData
        ⟨some ⟨some "All Systems Operational"⟩, none, none⟩
        ⟨none, some [⟨"ICN Load Balancer", none, some "operational"⟩], none⟩)).status
      = some ⟨some "All Systems Operational"⟩ ∧
      (filterForICNWith ["icn"] (combineStatusData
        ⟨some ⟨some "All Systems Operational"⟩, none, none⟩
        ⟨none, some [⟨"ICN Load Balancer", none, some "operational"⟩], none⟩)).components
      = some [⟨"ICN Load Balancer", none, some "operational"⟩]) := by
  refine ⟨fun sd cd => ⟨rfl, rfl, rfl⟩, fun sd cd own => rfl, fun rc rs h1 h2 => ?_,
    by decide, by decide⟩
  simp [fetchICNComponentsStatus, h1, h2]

/-- A 200 upstream response whose body is a bare status document, used
by witnesses. -/
def respOkStatus : HttpResponse := ⟨200, "OK", ⟨some ⟨some "ok"⟩, none, none⟩⟩

/-- Witness for C6: the client on two concrete ok responses returns
the filtered merge. -/
theorem C6_witness :
    fetchICNComponentsStatus resp200 respOkStatus
      = .ok (filterForICN (combineStatusData respOkStatus.body resp200.body)) :=
  C6_merge_semantics.2.2.1 resp200 respOkStatus (by decide) (by decide)

/-- Counterexample to C7 as stated: with a configured webhook, an
unknown notification type makes the send operation complete normally —
it returns `false` with nothing posted instead of raising an error. -/
theorem C7_counterexample :
    sendSlackNotification (some "https://hooks.example/T000") true "2025-01-01T00:00:00Z"
      (fun s => s) ⟨none, none, none⟩ "heartbeat" = .ok ⟨false, []⟩ := by
  decide

/-- C7 (amended): for an unknown notification type the payload
formatter raises an error naming the type, but `sendSlackNotification`
catches every error, so the send operation itself completes with
`false` and posts nothing. -/
theorem C7_unknown_type_amended (now : String) (loc : String → String) (data : JsData)
    (type : String) (h1 : type ≠ "components") (h2 : type ≠ "incidents")
    (webhookUrl : Option String) (webhookOk : Bool) :
    formatSlackPayload now loc data type = .error ("Unknown notification type: " ++ type) ∧
    sendSlackNotification webhookUrl webhookOk now loc data type = .ok ⟨false, []⟩ := by
  have hf : formatSlackPayload now loc data type
      = .error ("Unknown notification type: " ++ type) := by
    unfold formatSlackPayload
    rw [if_neg h1, if_neg h2]
  refine ⟨hf, ?_⟩
  unfold sendSlackNotification
  by_cases hw : jsTruthy webhookUrl
  · simp [hw, hf]
  · simp [hw]

/-- Witness for C7 (amended) at the unknown type `heartbeat`. -/
theorem C7_witness :
    formatSlackPayload "t0" (fun s => s) ⟨none, none, none⟩ "heartbeat"
      = .error ("Unknown notification type: " ++ "heartbeat") ∧
    sendSlackNotification none false "t0" (fun s => s) ⟨none, none, none⟩ "heartbeat"
      = .ok ⟨false, []⟩ :=
  C7_unknown_type_amended "t0" (fun s => s) ⟨none, none, none⟩ "heartbeat"
    (by decide) (by decide) none false

/-- Counterexample to C8 as stated: on a snapshot whose `components`
field is absent, the filter returns the field still absent, not
present-and-empty. -/
theorem C8_counterexample :
    (filterForICN ⟨none, none, none⟩).components = none ∧
    (filterForICN ⟨none, none, none⟩).components ≠ some ([] : List Component) :=
  ⟨rfl, by decide⟩

/-- C8 (amended): on a present empty components list the filter
returns a present empty list; on an absent components field it returns
the snapshot unchanged (field still absent); no error occurs in either
case, the functions being total. Within the pipeline the merged
snapshot always has a present components array, so when the upstream
components listing lacks the field the check's result has a present,
empty components list. -/
theorem C8_empty_components_amended (K : List String) (dEmpty dAbsent : JsData)
    (componentsResponse statusResponse : HttpResponse)
    (hE : dEmpty.components = some []) (hA : dAbsent.components = none)
    (h1 : componentsResponse.ok = true) (h2 : statusResponse.ok = true)
    (h3 : componentsResponse.body.components = none) :
    (filterForICNWith K dEmpty).components = some [] ∧
    filterForICNWith K dAbsent = dAbsent ∧
    fetchICNComponentsStatus componentsResponse statusResponse
      = .ok (filterForICN (combineStatusData statusResponse.body
          componentsResponse.body)) ∧
    (filterForICN (combineStatusData statusResponse.body
        componentsResponse.body)).components = some [] := by
  refine ⟨?_, ?_, ?_, ?_⟩
  · simp [filterForICNWith, hE]
  · simp [filterForICNWith, hA]
  · simp [fetchICNComponentsStatus, h1, h2]
  · simp [filterForICN, filterForICNWith, combineStatusData, h3]

/-- Witness for C8 (amended) at concrete snapshots and responses. -/
theorem C8_witness :
    (filterForICNWith ICN_KEYWORDS ⟨none, some [], none⟩).components = some [] ∧
    filterForICNWith ICN_KEYWORDS ⟨none, none, none⟩ = ⟨none, none, none⟩ ∧
    fetchICNComponentsStatus resp200 respOkStatus
      = .ok (filterForICN (combineStatusData respOkStatus.body resp200.body)) ∧
    (filterForICN (combineStatusData respOkStatus.body resp200.body)).components
      = some [] :=
  C8_empty_components_amended ICN_KEYWORDS ⟨none, some [], none⟩ ⟨none, none, none⟩
    resp200 respOkStatus rfl rfl (by decide) (by decide) rfl

/-- The serialization round trip reproduces the value it copies. -/
theorem deepCopyIncident_eq (i : Incident) : deepCopyIncident i = i := by
  obtain ⟨n, s, im, mo, ius, cs⟩ := i
  unfold deepCopyIncident
  congr 1
  · cases ius with
    | none => rfl
    | some us => exact congrArg some (List.map_id' us)
  · cases cs with
    | none => rfl
    | some rs => exact congrArg some (List.map_id' rs)

/-- The deep copy used by `filterForICN` reproduces its input value. -/
theorem deepCopy_eq (data : JsData) : deepCopy data = data := by
  obtain ⟨st, comps, incs⟩ := data
  unfold deepCopy
  congr 1
  · cases st with
    | none => rfl
    | some s => rfl
  · cases comps with
    | none => rfl
    | some l => exact congrArg some (List.map_id' l)
  · cases incs with
    | none => rfl
    | some l =>
      refine congrArg some ?_
      induction l with
      | nil => rfl
      | cons i is ih => rw [List.map_cons, deepCopyIncident_eq, ih]

/-- C9: at the object level, filtering allocates a fresh copy and
mutates only that copy: the input object is untouched (same heap slot
value before and after), the returned reference is a different object,
and the object it points at holds exactly the pure `filterForICN` of
the input. -/
theorem heapGet_append_left (heap : List JsData) (x : JsData) (r : Nat)
    (hr : r < heap.length) : heapGet (heap ++ [x]) r = heapGet heap r := by
  unfold heapGet
  rw [List.getD_eq_getElem?_getD, List.getD_eq_getElem?_getD,
    List.getElem?_append_left hr]

theorem heapGet_concat_length (heap : List JsData) (x : JsData) :
    heapGet (heap ++ [x]) heap.length = x := by
  unfold heapGet
  rw [List.getD_eq_getElem?_getD, List.getElem?_concat_length]
  rfl

theorem heapGet_set_ne (heap : List JsData) (i r : Nat) (x : JsData) (h : i ≠ r) :
    heapGet (heap.set i x) r = heapGet heap r := by
  unfold heapGet
  rw [List.getD_eq_getElem?_getD, List.getD_eq_getElem?_getD, List.getElem?_set_ne h]

theorem heapGet_set_self (heap : List JsData) (i : Nat) (x : JsData)
    (h : i < heap.length) : heapGet (heap.set i x) i = x := by
  unfold heapGet
  rw [List.getD_eq_getElem?_getD, List.getElem?_set_self h]
  rfl

theorem C9_filter_no_mutation (heap : List JsData) (r : Nat) (hr : r < heap.length) :
    heapGet (filterForICNHeap heap r).1 r = heapGet heap r ∧
    heapGet (filterForICNHeap heap r).1 (filterForICNHeap heap r).2
      = filterForICN (heapGet heap r) ∧
    (filterForICNHeap heap r).2 ≠ r := by
  have hstep : filterForICNHeap heap r
      = match (heapGet heap r).components with
        | some comps => ((heap ++ [heapGet heap r]).set heap.length
            { heapGet heap r with
                components := some (comps.filter (matchesICN ICN_KEYWORDS)) },
            heap.length)
        | none => (heap ++ [heapGet heap r], heap.length) := by
    unfold filterForICNHeap
    simp only [deepCopy_eq]
  cases hc : (heapGet heap r).components with
  | none =>
    simp only [hstep, hc]
    refine ⟨heapGet_append_left heap _ r hr, ?_, by simp; omega⟩
    rw [heapGet_concat_length]
    simp [filterForICN, filterForICNWith, hc]
  | some comps =>
    simp only [hstep, hc]
    refine ⟨?_, ?_, by simp; omega⟩
    · rw [heapGet_set_ne _ _ _ _ (by omega), heapGet_append_left heap _ r hr]
    · rw [heapGet_set_self _ _ _ (by simp)]
      simp [filterForICN, filterForICNWith, hc]

/-- Witness for C9 at a one-object heap holding a snapshot with one
matching and one non-matching component. -/
theorem C9_witness :
    heapGet (filterForICNHeap [⟨none, some [⟨"Seoul Hub", none, some "operational"⟩,
        ⟨"Osaka Hub", none, some "operational"⟩], none⟩] 0).1 0
      = heapGet [⟨none, some [⟨"Seoul Hub", none, some "operational"⟩,
        ⟨"Osaka Hub", none, some "operational"⟩], none⟩] 0 ∧
    heapGet (filterForICNHeap [⟨none, some [⟨"Seoul Hub", none, some "operational"⟩,
        ⟨"Osaka Hub", none, some "operational"⟩], none⟩] 0).1
        (filterForICNHeap [⟨none, some [⟨"Seoul Hub", none, some "operational"⟩,
        ⟨"Osaka Hub", none, some "operational"⟩], none⟩] 0).2
      = filterForICN (heapGet [⟨none, some [⟨"Seoul Hub", none, some "operational"⟩,
        ⟨"Osaka Hub", none, some "operational"⟩], none⟩] 0) ∧
    (filterForICNHeap [⟨none, some [⟨"Seoul Hub", none, some "operational"⟩,
        ⟨"Osaka Hub", none, some "operational"⟩], none⟩] 0).2 ≠ 0 :=
  C9_filter_no_mutation [⟨none, some [⟨"Seoul Hub", none, some "operational"⟩,
    ⟨"Osaka Hub", none, some "operational"⟩], none⟩] 0 (by decide)

/-- When every component carries a status string, the per-component
render loop throws nothing. -/
theorem componentsBlocks_ok (l : List Component) (h : ∀ x ∈ l, x.status ≠ none) :
    ∃ bs, componentsBlocks l = .ok bs := by
  induction l with
  | nil => exact ⟨[], rfl⟩
  | cons c cs ih =>
    obtain ⟨bs, hbs⟩ := ih fun x hx => h x (List.mem_cons_of_mem c hx)
    cases hst : c.status with
    | none => exact absurd hst (h c (List.mem_cons_self c cs))
    | some st =>
      have hcb : componentBlock c = .ok (Block.sect (componentStatusEmoji (some st)
          ++ " *" ++ c.name ++ "*: " ++ jsReplaceUnderscore st)) := by
        simp [componentBlock, hst]
      refine ⟨Block.sect (componentStatusEmoji (some st) ++ " *" ++ c.name ++ "*: "
        ++ jsReplaceUnderscore st) :: bs, ?_⟩
      unfold componentsBlocks
      rw [hcb, hbs]

/-- A component without a status makes the per-component render loop
throw. -/
theorem componentsBlocks_error (l : List Component) (c : Component)
    (hc : c ∈ l) (hst : c.status = none) : ∃ e, componentsBlocks l = .error e := by
  induction l with
  | nil => exact absurd hc (List.not_mem_nil c)
  | cons a as ih =>
    rcases List.mem_cons.mp hc with h | h
    · subst h
      have hcb : componentBlock c
          = .error "TypeError: Cannot read properties of undefined (reading 'replace')" := by
        simp [componentBlock, hst]
      refine ⟨"TypeError: Cannot read properties of undefined (reading 'replace')", ?_⟩
      unfold componentsBlocks
      rw [hcb]
    · obtain ⟨e, he⟩ := ih h
      cases ha : componentBlock a with
      | error ea =>
        refine ⟨ea, ?_⟩
        unfold componentsBlocks
        rw [ha]
      | ok b =>
        refine ⟨e, ?_⟩
        unfold componentsBlocks
        rw [ha, he]

/-- C10: the components formatter is total exactly under the
precondition that every rendered component carries a status string —
a component with an absent status makes it raise while rendering that
component's line — whereas the incidents formatter tolerates an absent
incident status, falling back to the warning glyph and the text
`Unknown`. -/
theorem C10_formatter_totality (now : String) (dOk dBad : JsData) (cBad : Component)
    (incident : Incident)
    (hOk : ∀ x ∈ dOk.components.getD [], x.status ≠ none)
    (hmem : cBad ∈ dBad.components.getD []) (hbad : cBad.status = none)
    (hist : incident.status = none) :
    (formatComponentsPayload now dOk).toOption.isSome = true ∧
    (formatComponentsPayload now dBad).toOption = none ∧
    getStatusEmoji none = "⚠️" ∧
    strStartsWith (incidentHeadText incident) "⚠️" = true ∧
    strIncludes (incidentHeadText incident) "Unknown" = true := by
  have hjs : jsOr (none : Option String) "Unknown" = "Unknown" := rfl
  refine ⟨?_, ?_, rfl, ?_, ?_⟩
  · have h1 : ∃ p, formatComponentsPayload now dOk = .ok p := by
      unfold formatComponentsPayload
      by_cases hl : (dOk.components.getD []).length > 0
      · obtain ⟨bs, hbs⟩ := componentsBlocks_ok _ hOk
        simp only [if_pos hl, hbs]
        exact ⟨_, rfl⟩
      · simp only [if_neg hl]
        exact ⟨_, rfl⟩
    obtain ⟨p, hp⟩ := h1
    rw [hp]
    rfl
  · have hl : (dBad.components.getD []).length > 0 :=
      List.length_pos.mpr (List.ne_nil_of_mem hmem)
    obtain ⟨e, he⟩ := componentsBlocks_error _ cBad hmem hbad
    unfold formatComponentsPayload
    simp only [if_pos hl, he]
    rfl
  · rw [strStartsWith_iff]
    unfold incidentHeadText
    rw [hist]
    simp only [String.data_append, List.append_assoc]
    exact List.prefix_append _ _
  · rw [strIncludes_iff]
    unfold incidentHeadText
    rw [hist, hjs]
    refine ⟨(getStatusEmoji none ++ " *" ++ incident.name ++ "*\n*Status:* ").data,
      ((if incidentImpactText incident ≠ "" then
          "\n*" ++ incidentImpactText incident ++ "*" else "")
        ++ (if incidentMonitoringText incident ≠ "" then
          "\n" ++ incidentMonitoringText incident else "")).data, ?_⟩
    simp only [String.data_append, List.append_assoc]

/-- Witness for C10: an all-status component list renders; a component
with no status field makes the components formatter throw; an incident
without a status renders with the warning glyph and `Unknown`. -/
theorem C10_witness :
    (formatComponentsPayload "t0"
      ⟨none, some [⟨"Seoul Edge", none, some "operational"⟩], none⟩).toOption.isSome
      = true ∧
    (formatComponentsPayload "t0" ⟨none, some [⟨"Seoul Edge", none, none⟩], none⟩).toOption
      = none ∧
    getStatusEmoji none = "⚠️" ∧
    strStartsWith (incidentHeadText ⟨"Edge Incident", none, none, false, none, none⟩)
      "⚠️" = true ∧
    strIncludes (incidentHeadText ⟨"Edge Incident", none, none, false, none, none⟩)
      "Unknown" = true :=
  C10_formatter_totality "t0" ⟨none, some [⟨"Seoul Edge", none, some "operational"⟩], none⟩
    ⟨none, some [⟨"Seoul Edge", none, none⟩], none⟩ ⟨"Seoul Edge", none, none⟩
    ⟨"Edge Incident", none, none, false, none, none⟩ (by decide) (by decide) rfl rfl

end CF
